import Mathlib

/-!
Shallow embedding of `src/common/subscriptions.js` (DLaaS): subscriptions,
invoices, payments, the payment reconciler (`checkForPayment`,
`insertTransactionsAndCalculateSum`, `confirmPayment`), the invoice manager
(`createInvoice`), and the lifecycle operations (`renewSubscription`,
`checkSubscriptionsForExpiration`).

Modelling conventions:
- Database tables are Lean lists inside a world state `St`; `SELECT ... WHERE`
  with `result[0]` is `List.find?`, `UPDATE ... WHERE` is `List.map` guarded by
  the key, and `INSERT IGNORE` is an append guarded by a key-existence check.
- JS numbers holding money (base units, display units) are modelled as `ℚ`;
  the base-unit division `amount / 1000000000000` is exact rational division.
- JS `Date` values are modelled by calendar triples `JsDate`; `setFullYear`
  keeps month/day except that Feb 29 mapped into a non-leap year rolls over to
  Mar 1, and `setDate(getDate() + 15)` rolls over a month boundary.
- A fallible async operation returns `St × Outcome α`.  `Outcome.ok` models a
  resolved promise, `Outcome.err` a rejected one.  `Outcome.stuck` models the
  JS anti-pattern present in `createInvoice`: a `throw` inside an
  `new Promise(async (resolve, reject) => ...)` executor is swallowed by the
  async function (which merely returns a rejected inner promise that nobody
  observes), so the outer promise never settles; the error is lost and the
  caller waits forever.
- External collaborators (Chia RPC gateway, notifier, uuid, clock, config) are
  inputs: the gateway's `?.result` is an `Option` argument, the notifier's
  success is a `Bool` in `CreateEnv`, delivered mail is logged in `St.emails`.
-/

/-- A calendar date, standing for the JS `Date` values stored in the tables
(time-of-day is not relevant to any modelled operation). -/
structure JsDate where
  year : Int
  month : Nat
  day : Nat
  deriving DecidableEq, Repr

/-- Gregorian leap-year test (as implemented by JS `Date`). -/
def isLeapYear (y : Int) : Bool :=
  (y % 4 == 0 && y % 100 != 0) || y % 400 == 0

/-- Number of days of month `m` (1-12) in year `y`, as used by JS `Date`
normalisation. -/
def daysInMonth (y : Int) (m : Nat) : Nat :=
  if m = 2 then (if isLeapYear y then 29 else 28)
  else if m = 4 ∨ m = 6 ∨ m = 9 ∨ m = 11 then 30
  else 31

/-- `d.setFullYear(d.getFullYear() + 1)`: keep month and day; a Feb 29 mapped
into a non-leap year is normalised by JS to Mar 1. -/
def addOneYearJS (d : JsDate) : JsDate :=
  if d.month = 2 ∧ d.day = 29 ∧ ¬ isLeapYear (d.year + 1) then
    ⟨d.year + 1, 3, 1⟩
  else
    ⟨d.year + 1, d.month, d.day⟩

/-- `e.setDate(d.getDate() + 15)`: add 15 days, rolling over at most one month
boundary (valid because every month has at least 28 days and `d.day ≤ 31`). -/
def addDays15 (d : JsDate) : JsDate :=
  let dd := d.day + 15
  if dd ≤ daysInMonth d.year d.month then { d with day := dd }
  else if d.month = 12 then ⟨d.year + 1, 1, dd - daysInMonth d.year d.month⟩
  else { d with month := d.month + 1, day := dd - daysInMonth d.year d.month }

/-- Chronological order on dates (the SQL `BETWEEN` comparison on the stored
date values), as a Bool. -/
def dateLeB (a b : JsDate) : Bool :=
  a.year < b.year ||
    (a.year == b.year &&
      (a.month < b.month || (a.month == b.month && a.day ≤ b.day)))

/-- One transaction as returned by the Chia gateway's `GET_TRANSACTIONS`
RPC: `{name, amount (base units), confirmed, confirmed_at_height,
fee_amount}`. -/
structure Tx where
  name : String
  amount : ℚ
  confirmed : Bool
  confirmed_at_height : Int
  fee_amount : ℚ
  deriving DecidableEq, Repr

/-- A row of the `payments` table
(`invoice_guid, coin_name, amount, confirmed_at_height, fee`). -/
structure Payment where
  invoice_guid : String
  coin_name : String
  amount : ℚ
  confirmed_at_height : Int
  fee : ℚ
  deriving DecidableEq, Repr

/-- A row of the `invoices` table.  `subscription_id` is an `Option` because
the JS insert would store `NULL` for an `undefined` argument. -/
structure Invoice where
  guid : String
  subscription_id : Option Nat
  issue_date : JsDate
  due_date : JsDate
  total_amount_due : ℚ
  amount_paid : ℚ
  xch_payment_address : String
  status : String
  deriving DecidableEq, Repr

/-- The parsed `data` JSON blob stored on a subscription (activation command
plus an opaque payload, here reduced to the command name; the payload is not
observed by any modelled claim). -/
structure SubData where
  cmd : String
  deriving DecidableEq, Repr

/-- A row of the `subscriptions` table. -/
structure Subscription where
  id : Nat
  user_id : Nat
  product_key : String
  start_date : JsDate
  end_date : JsDate
  status : String
  data : SubData
  deriving DecidableEq, Repr

/-- A row of the `users` table (only the fields the module reads). -/
structure User where
  id : Nat
  email : String
  deriving DecidableEq, Repr

/-- A product from `products.config.json`. -/
structure Product where
  cmd : String
  cost : ℚ
  deriving DecidableEq, Repr

/-- World state: the database tables plus the log of emails the notifier
actually delivered. -/
structure St where
  invoices : List Invoice
  payments : List Payment
  subscriptions : List Subscription
  users : List User
  emails : List (String × String × String)
  deriving DecidableEq, Repr

/-- Result of an async JS operation.  `ok` = resolved, `err` = rejected,
`stuck` = the returned promise never settles (a `throw` escaped an async
`Promise` executor and was lost as an unhandled rejection). -/
inductive Outcome (α : Type) where
  | ok (v : α)
  | err (e : String)
  | stuck (e : String)
  deriving DecidableEq, Repr

/-- `true` iff the outcome is a rejection delivered to the caller. -/
def Outcome.isErr {α : Type} : Outcome α → Bool
  | .err _ => true
  | _ => false

/-- Behaviour of the external collaborators during one invoice-manager call:
the current clock, the gateway's `?.result` for `GET_NEW_PAYMENT_ADDRESS`,
the uuid generator's fresh guid, the configured service domain, and whether
`sendEmail` succeeds. -/
structure CreateEnv where
  now : JsDate
  newAddress : Option String
  freshGuid : String
  serviceDomain : String
  emailOk : Bool
  deriving DecidableEq, Repr

/-- The `payments` row built for a confirmed transaction of invoice `g`
(amount converted from base units to display units). -/
def paymentRow (g : String) (t : Tx) : Payment :=
  { invoice_guid := g
    coin_name := t.name
    amount := t.amount / 1000000000000
    confirmed_at_height := t.confirmed_at_height
    fee := t.fee_amount }

/-- `INSERT IGNORE INTO payments`: the row is appended unless a row with the
same `(invoice_guid, coin_name)` key exists, in which case the statement
silently does nothing. -/
def insertIgnorePayment (ps : List Payment) (p : Payment) : List Payment :=
  if ps.any (fun q => q.invoice_guid == p.invoice_guid && q.coin_name == p.coin_name)
  then ps
  else ps ++ [p]

/-- One iteration of the `for (const transaction of transactions)` loop in
`insertTransactionsAndCalculateSum`: a confirmed transaction adds its
display-unit amount to the running sum and is insert-ignored into `payments`;
an unconfirmed one is skipped. -/
def itacsStep (invoiceId : String) (acc : St × ℚ) (t : Tx) : St × ℚ :=
  if t.confirmed then
    ({ acc.1 with payments := insertIgnorePayment acc.1.payments (paymentRow invoiceId t) },
      acc.2 + t.amount / 1000000000000)
  else acc

/-- `insertTransactionsAndCalculateSum(transactions, invoiceId)`: folds the
loop over the transaction list starting from sum `0` and returns the final
state together with `confirmedSum`.  Note the sum ranges over every confirmed
transaction of the argument list, whether or not its insert was ignored. -/
def insertTransactionsAndCalculateSum (st : St) (transactions : List Tx)
    (invoiceId : String) : St × ℚ :=
  transactions.foldl (itacsStep invoiceId) (st, 0)

/-- `UPDATE invoices SET amount_paid = :amount_paid WHERE guid = :invoiceId`. -/
def updateInvoiceAmountPaid (invs : List Invoice) (g : String) (a : ℚ) : List Invoice :=
  invs.map (fun i => if i.guid == g then { i with amount_paid := a } else i)

/-- `confirmPayment(guid)`: mark the invoice paid (erroring when the update
changes no row), join to the owning subscription (erroring when absent), set
the subscription active and dispatch its stored activation command (an
external RPC side effect, assumed to return), resolving the subscription id. -/
def confirmPayment (st : St) (guid : String) : St × Outcome Nat :=
  let affected :=
    (st.invoices.filter (fun i => i.guid == guid && i.status != "paid")).length
  let invs := st.invoices.map (fun i => if i.guid == guid then { i with status := "paid" } else i)
  let st1 := { st with invoices := invs }
  if affected = 0 then
    (st1, .err "No invoice found with the provided GUID")
  else
    let rows := st1.subscriptions.filter (fun s =>
      st1.invoices.any (fun i => i.guid == guid && i.subscription_id == some s.id))
    match rows with
    | [] => (st1, .err "Subscription not found.")
    | s :: _ =>
      let subs := st1.subscriptions.map (fun t =>
        if t.id == s.id then { t with status := "active" } else t)
      ({ st1 with subscriptions := subs }, .ok s.id)

/-- `checkForPayment(invoiceId)`.  `resp` is the gateway's `?.result` for the
`GET_TRANSACTIONS` RPC (`none` when the call produced no result structure).
The JS guard `if (!totalXchPaid)` fires exactly when the number is `0`, since
`insertTransactionsAndCalculateSum` always returns a number.  On settlement or
non-settlement the function resolves the invoice row as read at the start of
the call. -/
def checkForPayment (st : St) (resp : Option (List Tx)) (invoiceId : String) :
    St × Outcome Invoice :=
  match st.invoices.find? (fun i => i.guid == invoiceId) with
  | none => (st, .err "No invoice found with the provided GUID")
  | some invoice =>
    if invoice.status = "paid" then (st, .ok invoice)
    else
      match resp with
      | none =>
        (st, .err ("Error retrieving transactions from Chia node. For "
          ++ invoice.xch_payment_address))
      | some addressTransactions =>
        let r := insertTransactionsAndCalculateSum st addressTransactions invoiceId
        if r.2 = 0 then (r.1, .err "Error retrieving balance from Chia node.")
        else
          let st2 := { r.1 with invoices := updateInvoiceAmountPaid r.1.invoices invoiceId r.2 }
          if invoice.total_amount_due ≤ r.2 then
            let r2 := confirmPayment st2 invoiceId
            (r2.1, match r2.2 with
              | .ok _ => .ok invoice
              | .err e => .err e
              | .stuck e => .stuck e)
          else (st2, .ok invoice)

/-- A sequence of `checkForPayment` polls against the same invoice, each with
its own gateway response; the state threads through, the per-call outcome is
dropped. -/
def runChecks (st : St) (invoiceId : String) (resps : List (Option (List Tx))) : St :=
  resps.foldl (fun s r => (checkForPayment s r invoiceId).1) st

/-- `createInvoice(userId, subscriptionId, product)`.  Arguments are `Option`s
because `checkSubscriptionsForExpiration` calls it with a single argument,
leaving `subscriptionId` and `product` as JS `undefined`.
- `product = none`: reading `product.cost` throws a TypeError inside the async
  `Promise` executor, so the promise never settles (`stuck`); no write happens.
- missing payment address: the `throw` sits before the `try` block inside the
  async executor, so it too is lost and the promise never settles (`stuck`);
  no invoice row is created.
- after a successful insert, a failing user lookup or `sendEmail` is caught by
  the `try`/`catch`, logged, and rejected to the caller; the inserted row is
  not rolled back.
On success it resolves a record carrying the inserted row's data (the JS
object literal names the guid `id` and the amount `amount`; the data is that
of the row returned here). -/
def createInvoice (st : St) (env : CreateEnv) (userId : Option Nat)
    (subscriptionId : Option Nat) (product : Option Product) : St × Outcome Invoice :=
  match product with
  | none => (st, .stuck "TypeError: Cannot read properties of undefined (reading cost)")
  | some p =>
    match env.newAddress with
    | none => (st, .stuck "Error retrieving payment address from Chia node.")
    | some addr =>
      let inv : Invoice :=
        { guid := env.freshGuid
          subscription_id := subscriptionId
          issue_date := env.now
          due_date := addOneYearJS env.now
          total_amount_due := p.cost
          amount_paid := 0
          xch_payment_address := addr
          status := "unpaid" }
      let st1 := { st with invoices := st.invoices ++ [inv] }
      match st1.users.find? (fun u => some u.id == userId) with
      | none => (st1, .err "TypeError: Cannot read properties of undefined (reading email)")
      | some user =>
        if env.emailOk then
          ({ st1 with emails := st1.emails ++
              [(user.email, "Your Invoice",
                "Please pay the invoice at https://app." ++ env.serviceDomain
                  ++ "/invoices/" ++ env.freshGuid
                  ++ " to activate or renew your subscription.")] },
            .ok inv)
        else (st1, .err "sendEmail failed")

/-- `renewSubscription(subscriptionId)`: load the subscription (erroring when
absent), refuse a terminated one, otherwise set `end_date` one calendar year
after the stored end date (the current time is never consulted) and resolve
the loaded record with the new end date spread over it. -/
def renewSubscription (st : St) (subscriptionId : Nat) : St × Outcome Subscription :=
  match st.subscriptions.find? (fun s => s.id == subscriptionId) with
  | none => (st, .err "Subscription not found")
  | some s =>
    if s.status = "terminated" then
      (st, .err "Cannot renew a terminated subscription")
    else
      let newEndDate := addOneYearJS s.end_date
      let subs := st.subscriptions.map (fun t =>
        if t.id == subscriptionId then { t with end_date := newEndDate } else t)
      ({ st with subscriptions := subs }, .ok { s with end_date := newEndDate })

/-- `checkSubscriptionsForExpiration()`: select the `active` subscriptions
whose end date lies in `[now, now + 15 days]` (inner-joined to their user),
then for each row `await createInvoice(subscription.id)` — a single argument,
so inside `createInvoice` the `product` is `undefined` and its promise gets
stuck before performing any write.  The per-row `try`/`catch` never runs
(there is no settlement to await), `Promise.all` never settles, and neither
invoice rows nor emails are produced.  With no matching row, `Promise.all([])`
resolves immediately. -/
def checkSubscriptionsForExpiration (st : St) (env : CreateEnv) : St × Outcome Unit :=
  let expirationDate := addDays15 env.now
  let rows := st.subscriptions.filter (fun s =>
    s.status == "active" && dateLeB env.now s.end_date
      && dateLeB s.end_date expirationDate
      && st.users.any (fun u => u.id == s.user_id))
  let perRow := rows.map (fun s => createInvoice st env (some s.id) none none)
  if perRow.any (fun r => match r.2 with | .stuck _ => true | _ => false) then
    (st, .stuck "TypeError: Cannot read properties of undefined (reading cost)")
  else (st, .ok ())

/-- Display-unit sum of the confirmed transactions of a gateway response: the
value `insertTransactionsAndCalculateSum` returns. -/
def confirmedDisplaySum (txs : List Tx) : ℚ :=
  ((txs.filter (fun t => t.confirmed)).map (fun t => t.amount / 1000000000000)).sum

/-- Names of the confirmed transactions of a gateway response. -/
def cnames (txs : List Tx) : List String :=
  (txs.filter (fun t => t.confirmed)).map (fun t => t.name)

/-- Sum of the `amount` column over the payments rows recorded for invoice
`g`. -/
def paymentsSumFor (ps : List Payment) (g : String) : ℚ :=
  ((ps.filter (fun p => p.invoice_guid == g)).map (fun p => p.amount)).sum

/-- Number of payments rows keyed by `(g, n)`. -/
def paymentKeyCount (ps : List Payment) (g n : String) : Nat :=
  (ps.filter (fun p => p.invoice_guid == g && p.coin_name == n)).length

/-- `amount_paid` of the invoice with guid `g` (0 when absent). -/
def amountPaidOf (st : St) (g : String) : ℚ :=
  ((st.invoices.find? (fun i => i.guid == g)).map Invoice.amount_paid).getD 0

/-- The payments-table effect of the ingestion loop, isolated from the sum:
each confirmed transaction is insert-ignored in list order. -/
def insFold (g : String) (ps : List Payment) (l : List Tx) : List Payment :=
  l.foldl (fun acc t => if t.confirmed then insertIgnorePayment acc (paymentRow g t) else acc) ps

/-- Modelled from the spec claim's words (C4): the sum of the display-unit
amounts of only the transactions newly ingested in this call, i.e. the
confirmed transactions of the response whose `(invoice_guid, coin_name)` key
is not already present in the payments table.  Stated only to compare the
claimed update rule with the source's. -/
def claimedNewlyIngestedSum (ps : List Payment) (txs : List Tx) (g : String) : ℚ :=
  ((txs.filter (fun t => t.confirmed &&
      !(ps.any (fun q => q.invoice_guid == g && q.coin_name == t.name)))).map
    (fun t => t.amount / 1000000000000)).sum

/-- A well-formed gateway response for the reconciliation invariant: the
confirmed transactions carry pairwise-distinct coin names and each confirmed
transaction's (nonnegative) base-unit amount is determined by its coin name
through `amt` — a blockchain transaction's amount never changes between
polls. -/
def goodResp (amt : String → ℚ) (r : Option (List Tx)) : Prop :=
  ∀ l, r = some l →
    (cnames l).Nodup ∧ ∀ t ∈ l, t.confirmed = true → t.amount = amt t.name ∧ 0 ≤ t.amount

/-- Later polls of the gateway list every confirmed transaction the earlier
polls listed (the node reports all transactions seen at the address, and
confirmations only accumulate). -/
def respLe (r1 r2 : Option (List Tx)) : Prop :=
  ∀ l1 l2, r1 = some l1 → r2 = some l2 → ∀ n ∈ cnames l1, n ∈ cnames l2

/-- Shape of a payments table written only by the reconciler for invoice `g`:
every row belongs to `g`, carries the converted amount of its coin, and coin
names are pairwise distinct (the uniqueness key). -/
def rowsClean (amt : String → ℚ) (g : String) (ps : List Payment) : Prop :=
  (∀ p ∈ ps, p.invoice_guid = g ∧ p.amount = amt p.coin_name / 1000000000000) ∧
    (ps.map Payment.coin_name).Nodup

/-- The reconciliation invariant for the single invoice `g`: the stored
`amount_paid` equals the sum of the `amount` column over its payments rows,
and the payments table is in reconciler-written shape. -/
def reconInvariant (amt : String → ℚ) (g : String) (st : St) : Prop :=
  (∃ inv, st.invoices = [inv] ∧ inv.guid = g ∧
      inv.amount_paid = paymentsSumFor st.payments g) ∧
    rowsClean amt g st.payments

/-- Projection of a subscription row away from its `end_date`, for framing
statements. -/
def subProj (s : Subscription) : Nat × Nat × String × JsDate × String × SubData :=
  (s.id, s.user_id, s.product_key, s.start_date, s.status, s.data)

/-! Concrete sample data used by witnesses and counterexamples. -/

/-- Sample date 2024-01-01. -/
def d20240101 : JsDate := ⟨2024, 1, 1⟩

/-- Sample user row. -/
def sampleUser : User := ⟨1, "user@example.com"⟩

/-- Sample subscription in `grace_period` ending 2024-01-01. -/
def graceSub : Subscription :=
  ⟨1, 1, "basic", ⟨2023, 1, 1⟩, d20240101, "grace_period", ⟨"CREATE_STORE"⟩⟩

/-- Sample world holding only `graceSub` and `sampleUser`. -/
def renewSt : St := ⟨[], [], [graceSub], [sampleUser], []⟩

/-- A paid sample invoice. -/
def paidInvoice : Invoice :=
  ⟨"i1", some 1, d20240101, ⟨2025, 1, 1⟩, 10, 10, "xch1qaddr", "paid"⟩

/-- World holding the paid sample invoice. -/
def paidSt : St := ⟨[paidInvoice], [], [graceSub], [sampleUser], []⟩

/-- An unpaid sample invoice over 10 display units. -/
def unpaidInvoice : Invoice :=
  ⟨"i1", some 1, d20240101, ⟨2025, 1, 1⟩, 10, 0, "xch1qaddr", "unpaid"⟩

/-- World holding the unpaid sample invoice. -/
def unpaidSt : St := ⟨[unpaidInvoice], [], [graceSub], [sampleUser], []⟩

/-- A confirmed 2-display-unit transaction. -/
def coinA : Tx := ⟨"coinA", 2000000000000, true, 100, 0⟩

/-- A second confirmed 2-display-unit transaction. -/
def coinB : Tx := ⟨"coinB", 2000000000000, true, 101, 0⟩

/-- Pre-state for the C4 counterexample: one display unit already reconciled
for `"i1"` (payments row for `coinA`, `amount_paid = 1`). -/
def c4Invoice : Invoice :=
  ⟨"i1", some 1, d20240101, ⟨2025, 1, 1⟩, 10, 1, "xch1qaddr", "unpaid"⟩

/-- The already-recorded payments row of the C4 counterexample. -/
def c4RowA : Payment := ⟨"i1", "coinA", 1, 100, 0⟩

/-- The C4 counterexample world. -/
def c4St : St := ⟨[c4Invoice], [c4RowA], [graceSub], [sampleUser], []⟩

/-- Collaborator behaviour with a healthy gateway and notifier. -/
def okEnv : CreateEnv := ⟨d20240101, some "xch1qaddr", "guid-1", "dlaas.io", true⟩

/-- Collaborator behaviour whose notifier fails. -/
def emailFailEnv : CreateEnv := ⟨d20240101, some "xch1qaddr", "guid-1", "dlaas.io", false⟩

/-- Collaborator behaviour whose gateway yields no payment address. -/
def noAddrEnv : CreateEnv := ⟨d20240101, none, "guid-1", "dlaas.io", true⟩

/-- Sample product. -/
def sampleProduct : Product := ⟨"CREATE_STORE", 10⟩

/-- An `active` subscription ending 2024-01-01, owned by `sampleUser`. -/
def expiringSub : Subscription :=
  ⟨1, 1, "basic", ⟨2023, 1, 1⟩, d20240101, "active", ⟨"CREATE_STORE"⟩⟩

/-- World holding `expiringSub`, due for the expiration scan. -/
def expireSt : St := ⟨[], [], [expiringSub], [sampleUser], []⟩

/-! ## Theorems -/

/-- C3: for an invoice whose status is already `paid`, `checkForPayment` is a
no-op: the state (payments rows, subscriptions, emails) is unchanged and the
call resolves the unchanged invoice, so no settlement work is performed. -/
theorem checkForPayment_paid_noop (st : St) (resp : Option (List Tx)) (g : String)
    (inv : Invoice)
    (hfind : st.invoices.find? (fun i => i.guid == g) = some inv)
    (hpaid : inv.status = "paid") :
    checkForPayment st resp g = (st, .ok inv) := by
  simp [checkForPayment, hfind, hpaid]

/-- Witness for C3 at a concrete paid invoice. -/
theorem checkForPayment_paid_noop_witness :
    checkForPayment paidSt (some [coinA]) "i1" = (paidSt, .ok paidInvoice) :=
  checkForPayment_paid_noop paidSt (some [coinA]) "i1" paidInvoice (by rfl) (by rfl)

/-- C5 (code bug evaluation): on an unpaid invoice, a perfectly valid empty
transaction list from the gateway makes `checkForPayment` reject with
"Error retrieving balance from Chia node." — the `if (!totalXchPaid)` guard
fires on the legitimate zero sum — instead of resolving the still-unpaid
invoice as the spec requires. -/
theorem checkForPayment_empty_list_rejects (st : St) (g : String) (inv : Invoice)
    (hfind : st.invoices.find? (fun i => i.guid == g) = some inv)
    (hunpaid : inv.status ≠ "paid") :
    checkForPayment st (some []) g =
      (st, .err "Error retrieving balance from Chia node.") := by
  simp [checkForPayment, hfind, hunpaid, insertTransactionsAndCalculateSum]

/-- Witness for C5's evaluation at a concrete unpaid invoice. -/
theorem checkForPayment_empty_list_rejects_witness :
    checkForPayment unpaidSt (some []) "i1" =
      (unpaidSt, .err "Error retrieving balance from Chia node.") :=
  checkForPayment_empty_list_rejects unpaidSt "i1" unpaidInvoice (by rfl) (by decide)

/-- C7 (code bug evaluation): when the gateway returns no payment address,
`createInvoice` creates no invoice row — but the error is not surfaced to the
caller: the `throw` sits inside the async `Promise` executor before the
`try` block, so the returned promise never settles. -/
theorem createInvoice_no_address_never_settles (st : St) (env : CreateEnv)
    (uid sid : Option Nat) (p : Product) (haddr : env.newAddress = none) :
    createInvoice st env uid sid (some p) =
      (st, .stuck "Error retrieving payment address from Chia node.") := by
  simp [createInvoice, haddr]

/-- Witness for C7's evaluation at a concrete environment. -/
theorem createInvoice_no_address_never_settles_witness :
    createInvoice unpaidSt noAddrEnv (some 1) (some 1) (some sampleProduct) =
      (unpaidSt, .stuck "Error retrieving payment address from Chia node.") :=
  createInvoice_no_address_never_settles unpaidSt noAddrEnv (some 1) (some 1)
    sampleProduct (by rfl)

/-- C9 (code bug evaluation): with an `active` subscription expiring inside
the 15-day window (and its user present), `checkSubscriptionsForExpiration`
creates no renewal invoice and sends no email: `createInvoice` is called with
only the subscription id, so `product` is `undefined`, reading its `cost`
rejects inside the async executor, and the batch promise never settles.  The
state is returned unchanged. -/
theorem checkSubscriptionsForExpiration_never_settles :
    checkSubscriptionsForExpiration expireSt
        ⟨d20240101, some "xch1qaddr", "guid-2", "dlaas.io", true⟩ =
      (expireSt,
        .stuck "TypeError: Cannot read properties of undefined (reading cost)") := by
  decide

/-- C6 (amended): in `createInvoice`, when the invoice row has been inserted
and the notification email then fails, the call is rejected — the notifier
error IS propagated to the caller — while the inserted invoice row is kept
(not rolled back). -/
theorem createInvoice_email_failure_rejects_but_keeps_row
    (st : St) (env : CreateEnv) (uid sid : Option Nat) (p : Product)
    (addr : String) (u : User)
    (haddr : env.newAddress = some addr)
    (huser : st.users.find? (fun v => some v.id == uid) = some u)
    (hmail : env.emailOk = false) :
    ∃ inv : Invoice,
      createInvoice st env uid sid (some p) =
        ({ st with invoices := st.invoices ++ [inv] }, .err "sendEmail failed") ∧
      inv.guid = env.freshGuid ∧ inv.status = "unpaid" ∧
      inv.total_amount_due = p.cost := by
  refine ⟨⟨env.freshGuid, sid, env.now, addOneYearJS env.now, p.cost, 0, addr, "unpaid"⟩,
    ?_, rfl, rfl, rfl⟩
  simp [createInvoice, haddr, huser, hmail]

/-- Witness for C6's amended theorem at a concrete failing notifier. -/
theorem createInvoice_email_failure_rejects_but_keeps_row_witness :
    ∃ inv : Invoice,
      createInvoice renewSt emailFailEnv (some 1) (some 1) (some sampleProduct) =
        ({ renewSt with invoices := renewSt.invoices ++ [inv] }, .err "sendEmail failed") ∧
      inv.guid = emailFailEnv.freshGuid ∧ inv.status = "unpaid" ∧
      inv.total_amount_due = sampleProduct.cost :=
  createInvoice_email_failure_rejects_but_keeps_row renewSt emailFailEnv
    (some 1) (some 1) sampleProduct "xch1qaddr" sampleUser (by rfl) (by rfl) (by rfl)

/-- Counterexample to C6 as stated: at a concrete input where the invoice
insert succeeded and only the email failed, the failure IS propagated to the
caller as a rejection. -/
theorem createInvoice_email_failure_propagates_cex :
    (createInvoice renewSt emailFailEnv (some 1) (some 1) (some sampleProduct)).2.isErr
      = true := by
  decide

/-- C8: `renewSubscription` on an existing, non-terminated subscription
(in particular one in `grace_period`) resolves the record with its end date
set by `setFullYear(year + 1)` on the *stored* end date — the current time is
not consulted — and persists that same end date on every stored row with the
subscription's id. -/
theorem renewSubscription_extends_end_date_one_year
    (st : St) (sid : Nat) (s : Subscription)
    (hfind : st.subscriptions.find? (fun t => t.id == sid) = some s)
    (hterm : s.status ≠ "terminated") :
    (renewSubscription st sid).2 = .ok { s with end_date := addOneYearJS s.end_date } ∧
    ∀ t ∈ (renewSubscription st sid).1.subscriptions,
      t.id = sid → t.end_date = addOneYearJS s.end_date := by
  refine ⟨by simp [renewSubscription, hfind, hterm], ?_⟩
  intro t ht hid
  simp only [renewSubscription, hfind, if_neg hterm, List.mem_map] at ht
  obtain ⟨t₀, ht₀, rfl⟩ := ht
  by_cases h : t₀.id = sid
  · simp [h]
  · simp [h] at hid

/-- Witness for C8: renewing the `grace_period` subscription with end date
2024-01-01 yields end date 2025-01-01, in the resolved record and in the
store. -/
theorem renewSubscription_extends_end_date_one_year_witness :
    (renewSubscription renewSt 1).2 = .ok { graceSub with end_date := ⟨2025, 1, 1⟩ } ∧
    ∀ t ∈ (renewSubscription renewSt 1).1.subscriptions,
      t.id = 1 → t.end_date = ⟨2025, 1, 1⟩ := by
  have h := renewSubscription_extends_end_date_one_year renewSt 1 graceSub
    (by rfl) (by decide)
  have he : addOneYearJS graceSub.end_date = ⟨2025, 1, 1⟩ := by decide
  rw [he] at h
  exact h

/-- C10: `renewSubscription` on an existing, non-terminated subscription
changes only `end_date`: the resolved record keeps every other field of the
stored row (in particular a `grace_period` status stays `grace_period`), the
stored table is unchanged under the projection that drops `end_date`, and the
other tables are untouched. -/
theorem renewSubscription_frame_only_end_date
    (st : St) (sid : Nat) (s : Subscription)
    (hfind : st.subscriptions.find? (fun t => t.id == sid) = some s)
    (hterm : s.status ≠ "terminated") :
    (∃ r : Subscription, (renewSubscription st sid).2 = .ok r ∧
      r.id = s.id ∧ r.user_id = s.user_id ∧ r.product_key = s.product_key ∧
      r.start_date = s.start_date ∧ r.status = s.status ∧ r.data = s.data) ∧
    (renewSubscription st sid).1.subscriptions.map subProj =
      st.subscriptions.map subProj ∧
    (renewSubscription st sid).1.invoices = st.invoices ∧
    (renewSubscription st sid).1.payments = st.payments ∧
    (renewSubscription st sid).1.emails = st.emails := by
  refine ⟨⟨{ s with end_date := addOneYearJS s.end_date },
    by simp [renewSubscription, hfind, hterm], rfl, rfl, rfl, rfl, rfl, rfl⟩, ?_, ?_, ?_, ?_⟩
  · simp only [renewSubscription, hfind, if_neg hterm, List.map_map]
    refine List.map_congr_left ?_
    intro t _
    by_cases h : t.id = sid <;> simp [h, subProj]
  · simp [renewSubscription, hfind, hterm]
  · simp [renewSubscription, hfind, hterm]
  · simp [renewSubscription, hfind, hterm]

/-- Witness for C10 at the concrete `grace_period` subscription: renewal
leaves it in `grace_period`. -/
theorem renewSubscription_frame_only_end_date_witness :
    (∃ r : Subscription, (renewSubscription renewSt 1).2 = .ok r ∧
      r.id = graceSub.id ∧ r.user_id = graceSub.user_id ∧
      r.product_key = graceSub.product_key ∧ r.start_date = graceSub.start_date ∧
      r.status = graceSub.status ∧ r.data = graceSub.data) ∧
    (renewSubscription renewSt 1).1.subscriptions.map subProj =
      renewSt.subscriptions.map subProj ∧
    (renewSubscription renewSt 1).1.invoices = renewSt.invoices ∧
    (renewSubscription renewSt 1).1.payments = renewSt.payments ∧
    (renewSubscription renewSt 1).1.emails = renewSt.emails :=
  renewSubscription_frame_only_end_date renewSt 1 graceSub (by rfl) (by decide)

/-- The ingestion fold, split into its payments effect (`insFold`) and its
running sum (`confirmedDisplaySum`). -/
theorem itacs_foldl (g : String) (l : List Tx) :
    ∀ (st : St) (c : ℚ),
      l.foldl (itacsStep g) (st, c) =
        ({ st with payments := insFold g st.payments l }, c + confirmedDisplaySum l) := by
  induction l with
  | nil => intro st c; simp [insFold, confirmedDisplaySum]
  | cons t l ih =>
    intro st c
    by_cases hc : t.confirmed = true
    · simp only [List.foldl_cons, itacsStep, hc, if_true]
      rw [ih]
      refine Prod.ext ?_ ?_
      · simp [insFold, hc]
      · simp [confirmedDisplaySum, hc, List.filter_cons]; ring
    · simp only [List.foldl_cons, itacsStep, hc, if_false]
      rw [ih]
      refine Prod.ext ?_ ?_
      · simp [insFold, hc]
      · simp [confirmedDisplaySum, hc, List.filter_cons]

/-- `insertTransactionsAndCalculateSum` in closed form. -/
theorem insertTransactionsAndCalculateSum_eq (st : St) (l : List Tx) (g : String) :
    insertTransactionsAndCalculateSum st l g =
      ({ st with payments := insFold g st.payments l }, confirmedDisplaySum l) := by
  simpa [insertTransactionsAndCalculateSum] using itacs_foldl g l st 0

/-- `confirmPayment` never touches the payments table, the users table or the
email log, and its only effect on invoices is setting the matching guid's
status to `paid`. -/
theorem confirmPayment_frame (st : St) (g : String) :
    (confirmPayment st g).1.payments = st.payments ∧
    (confirmPayment st g).1.invoices =
      st.invoices.map (fun i => if i.guid == g then { i with status := "paid" } else i) ∧
    (confirmPayment st g).1.users = st.users ∧
    (confirmPayment st g).1.emails = st.emails := by
  unfold confirmPayment
  by_cases h :
      (st.invoices.filter (fun i => i.guid == g && i.status != "paid")).length = 0
  · simp [h]
  · simp only [h, if_false]
    split <;> simp

/-- `List.find?` over a guid-preserving map of the invoices table. -/
theorem find?_map_guid (invs : List Invoice) (g : String) (f : Invoice → Invoice)
    (hf : ∀ i, (f i).guid = i.guid) :
    (invs.map f).find? (fun i => i.guid == g) =
      (invs.find? (fun i => i.guid == g)).map f := by
  induction invs with
  | nil => simp
  | cons i l ih =>
    cases h : (i.guid == g) <;>
      simp [List.find?_cons, hf i, h, ih]

/-- Effect of one `checkForPayment` poll on the payments table: nothing when
the invoice is already paid, otherwise the ingestion fold of the response. -/
theorem checkForPayment_payments (st : St) (l : List Tx) (g : String) (inv : Invoice)
    (hfind : st.invoices.find? (fun i => i.guid == g) = some inv) :
    (checkForPayment st (some l) g).1.payments =
      if inv.status = "paid" then st.payments else insFold g st.payments l := by
  by_cases hp : inv.status = "paid"
  · simp [checkForPayment, hfind, hp]
  · simp only [checkForPayment, hfind, if_neg hp, if_pos hp,
      insertTransactionsAndCalculateSum_eq]
    by_cases hz : confirmedDisplaySum l = 0
    · simp [hz]
    · rw [if_neg hz]
      by_cases hd : inv.total_amount_due ≤ confirmedDisplaySum l
      · rw [if_pos hd]
        exact (confirmPayment_frame _ g).1
      · rw [if_neg hd]

/-- One `checkForPayment` poll maps the invoices table through a
guid-preserving function. -/
theorem checkForPayment_invoices (st : St) (l : List Tx) (g : String) (inv : Invoice)
    (hfind : st.invoices.find? (fun i => i.guid == g) = some inv) :
    ∃ f : Invoice → Invoice, (∀ i, (f i).guid = i.guid) ∧
      (checkForPayment st (some l) g).1.invoices = st.invoices.map f := by
  by_cases hp : inv.status = "paid"
  · exact ⟨id, fun i => rfl, by simp [checkForPayment, hfind, hp]⟩
  · simp only [checkForPayment, hfind, if_neg hp, insertTransactionsAndCalculateSum_eq]
    by_cases hz : confirmedDisplaySum l = 0
    · rw [if_pos hz]
      exact ⟨id, fun i => rfl, by simp⟩
    · rw [if_neg hz]
      by_cases hd : inv.total_amount_due ≤ confirmedDisplaySum l
      · rw [if_pos hd]
        refine ⟨fun i =>
          (fun j => if j.guid == g then { j with status := "paid" } else j)
            (if i.guid == g then { i with amount_paid := confirmedDisplaySum l } else i),
          ?_, ?_⟩
        · intro i
          by_cases h : (i.guid == g) = true <;> simp [h]
        · rw [(confirmPayment_frame _ g).2.1]
          simp [updateInvoiceAmountPaid, List.map_map, Function.comp]
      · rw [if_neg hd]
        refine ⟨fun i => if i.guid == g then { i with amount_paid := confirmedDisplaySum l } else i,
          ?_, ?_⟩
        · intro i
          by_cases h : (i.guid == g) = true <;> simp [h]
        · simp [updateInvoiceAmountPaid]

/-- After a `checkForPayment` poll the invoice is still found by its guid. -/
theorem checkForPayment_find_after (st : St) (l : List Tx) (g : String) (inv : Invoice)
    (hfind : st.invoices.find? (fun i => i.guid == g) = some inv) :
    ∃ inv₁, (checkForPayment st (some l) g).1.invoices.find? (fun i => i.guid == g)
      = some inv₁ := by
  obtain ⟨f, hf, hinvs⟩ := checkForPayment_invoices st l g inv hfind
  exact ⟨f inv, by rw [hinvs, find?_map_guid _ g f hf, hfind]; rfl⟩

/-- A zero key count means the `INSERT IGNORE` existence check is false. -/
theorem keyCount_zero_any_false (ps : List Payment) (g n : String)
    (h : paymentKeyCount ps g n = 0) :
    ps.any (fun q => q.invoice_guid == g && q.coin_name == n) = false := by
  cases hA : ps.any (fun q => q.invoice_guid == g && q.coin_name == n) with
  | false => rfl
  | true =>
    obtain ⟨q, hq, hpred⟩ := List.any_eq_true.mp hA
    have hmem : q ∈ ps.filter (fun p => p.invoice_guid == g && p.coin_name == n) :=
      List.mem_filter.mpr ⟨hq, hpred⟩
    simp only [paymentKeyCount, List.length_eq_zero] at h
    rw [h] at hmem
    cases hmem

/-- Ingesting a single fresh confirmed transaction appends its row. -/
theorem insFold_single_absent (g : String) (ps : List Payment) (t : Tx)
    (hconf : t.confirmed = true)
    (habs : ps.any (fun q => q.invoice_guid == g && q.coin_name == t.name) = false) :
    insFold g ps [t] = ps ++ [paymentRow g t] := by
  simp [insFold, hconf, insertIgnorePayment, paymentRow]
  simpa using habs

/-- Ingesting a single already-recorded confirmed transaction is silently
ignored. -/
theorem insFold_single_present (g : String) (ps : List Payment) (t : Tx)
    (hconf : t.confirmed = true)
    (hpres : ps.any (fun q => q.invoice_guid == g && q.coin_name == t.name) = true) :
    insFold g ps [t] = ps := by
  simp [insFold, hconf, insertIgnorePayment, paymentRow]
  simpa using hpres

/-- The just-appended row makes the key-existence check true. -/
theorem any_key_append_row (ps : List Payment) (g : String) (t : Tx) :
    ((ps ++ [paymentRow g t]).any
      (fun q => q.invoice_guid == g && q.coin_name == t.name)) = true := by
  simp [List.any_append, paymentRow]

/-- Key counts add over appended tables. -/
theorem paymentKeyCount_append (ps qs : List Payment) (g n : String) :
    paymentKeyCount (ps ++ qs) g n = paymentKeyCount ps g n + paymentKeyCount qs g n := by
  simp [paymentKeyCount, List.filter_append]

/-- The row of a confirmed transaction counts once for its own key. -/
theorem paymentKeyCount_row (g : String) (t : Tx) :
    paymentKeyCount [paymentRow g t] g t.name = 1 := by
  simp [paymentKeyCount, paymentRow]

/-- C2: observing the same confirmed on-chain transaction in two separate
`checkForPayment` polls of an unpaid invoice records exactly one payments row
keyed by `(invoice guid, coin name)`: the duplicate `INSERT IGNORE` silently
no-ops. -/
theorem ingest_same_transaction_twice_one_row
    (inv : Invoice) (ps : List Payment) (subs : List Subscription)
    (users : List User) (em : List (String × String × String)) (t : Tx)
    (hunpaid : inv.status ≠ "paid") (hconf : t.confirmed = true)
    (hfresh : paymentKeyCount ps inv.guid t.name = 0) :
    paymentKeyCount
      (runChecks ⟨[inv], ps, subs, users, em⟩ inv.guid [some [t], some [t]]).payments
      inv.guid t.name = 1 := by
  have hfind : (⟨[inv], ps, subs, users, em⟩ : St).invoices.find?
      (fun i => i.guid == inv.guid) = some inv := by
    simp [List.find?_cons]
  have hrun : runChecks ⟨[inv], ps, subs, users, em⟩ inv.guid [some [t], some [t]] =
      (checkForPayment
        (checkForPayment ⟨[inv], ps, subs, users, em⟩ (some [t]) inv.guid).1
        (some [t]) inv.guid).1 := by
    simp [runChecks]
  have habs := keyCount_zero_any_false ps inv.guid t.name hfresh
  have hp₁ : (checkForPayment ⟨[inv], ps, subs, users, em⟩ (some [t]) inv.guid).1.payments
      = ps ++ [paymentRow inv.guid t] := by
    rw [checkForPayment_payments _ [t] inv.guid inv hfind, if_neg hunpaid]
    exact insFold_single_absent inv.guid ps t hconf habs
  obtain ⟨inv₁, hfind₁⟩ :=
    checkForPayment_find_after ⟨[inv], ps, subs, users, em⟩ [t] inv.guid inv hfind
  have hp₂ : (checkForPayment
      (checkForPayment ⟨[inv], ps, subs, users, em⟩ (some [t]) inv.guid).1
      (some [t]) inv.guid).1.payments = ps ++ [paymentRow inv.guid t] := by
    rw [checkForPayment_payments _ [t] inv.guid inv₁ hfind₁, hp₁]
    by_cases hp : inv₁.status = "paid"
    · rw [if_pos hp]
    · rw [if_neg hp]
      exact insFold_single_present inv.guid _ t hconf (any_key_append_row ps inv.guid t)
  rw [hrun, hp₂, paymentKeyCount_append, hfresh, paymentKeyCount_row]

/-- Witness for C2 at a concrete fresh invoice and transaction. -/
theorem ingest_same_transaction_twice_one_row_witness :
    paymentKeyCount
      (runChecks ⟨[unpaidInvoice], [], [graceSub], [sampleUser], []⟩ "i1"
        [some [coinA], some [coinA]]).payments "i1" "coinA" = 1 :=
  ingest_same_transaction_twice_one_row unpaidInvoice [] [graceSub] [sampleUser] []
    coinA (by decide) (by rfl) (by rfl)

/-- Counterexample to C4 as stated: at a concrete reachable pre-state (one
display unit already reconciled as payments row `coinA`, `amount_paid = 1`)
and a poll whose response lists only the new transaction `coinB` worth 2, the
stored `amount_paid` afterwards (2) is NOT the previous `amount_paid` plus the
display-unit sum of the transactions newly ingested in this call (1 + 2 = 3):
the code overwrites `amount_paid` with the response's own confirmed sum
instead of incrementing. -/
theorem checkForPayment_not_incremental_cex :
    amountPaidOf (checkForPayment c4St (some [coinB]) "i1").1 "i1" ≠
      amountPaidOf c4St "i1" + claimedNewlyIngestedSum c4St.payments [coinB] "i1" := by
  have h1 : amountPaidOf (checkForPayment c4St (some [coinB]) "i1").1 "i1" = 2 := by
    norm_num [c4St, c4Invoice, c4RowA, coinB, checkForPayment, amountPaidOf,
      insertTransactionsAndCalculateSum, itacsStep, insertIgnorePayment, paymentRow,
      updateInvoiceAmountPaid, List.find?, confirmedDisplaySum]
  have h2 : amountPaidOf c4St "i1"
      + claimedNewlyIngestedSum c4St.payments [coinB] "i1" = 3 := by
    have hne : ¬ ("coinA" : String) = "coinB" := by decide
    norm_num [c4St, c4Invoice, c4RowA, coinB, amountPaidOf, claimedNewlyIngestedSum,
      List.find?, List.filter_cons, List.filter_nil, hne]
  rw [h1, h2]
  norm_num

/-- C4 (amended): on an unpaid invoice, whenever the confirmed display-unit
sum of the current response is nonzero, `checkForPayment` overwrites the
stored `amount_paid` with that full sum (a plain `SET`, over all confirmed
transactions of the response, ingested before or not) — not an increment by
the newly ingested amounts. -/
theorem checkForPayment_overwrites_amount_paid
    (st : St) (g : String) (inv : Invoice) (txs : List Tx)
    (hfind : st.invoices.find? (fun i => i.guid == g) = some inv)
    (hunpaid : inv.status ≠ "paid")
    (hsum : confirmedDisplaySum txs ≠ 0) :
    amountPaidOf (checkForPayment st (some txs) g).1 g = confirmedDisplaySum txs := by
  have hg : inv.guid = g := by
    simpa using List.find?_some hfind
  have hupd : ∀ i : Invoice,
      ((if i.guid == g then { i with amount_paid := confirmedDisplaySum txs } else i)
        : Invoice).guid = i.guid := by
    intro i; by_cases h : (i.guid == g) = true <;> simp [h]
  have hpf : ∀ i : Invoice,
      ((if i.guid == g then { i with status := "paid" } else i) : Invoice).guid = i.guid := by
    intro i; by_cases h : (i.guid == g) = true <;> simp [h]
  simp only [checkForPayment, hfind, if_neg hunpaid,
    insertTransactionsAndCalculateSum_eq, if_neg hsum]
  by_cases hd : inv.total_amount_due ≤ confirmedDisplaySum txs
  · rw [if_pos hd]
    unfold amountPaidOf
    rw [(confirmPayment_frame _ g).2.1]
    simp only [updateInvoiceAmountPaid]
    rw [find?_map_guid _ g _ hpf, find?_map_guid _ g _ hupd, hfind]
    simp [hg]
  · rw [if_neg hd]
    unfold amountPaidOf
    simp only [updateInvoiceAmountPaid]
    rw [find?_map_guid _ g _ hupd, hfind]
    simp [hg]

/-- Witness for C4's amended theorem at the concrete counterexample state:
the stored `amount_paid` after the poll equals the response's confirmed sum. -/
theorem checkForPayment_overwrites_amount_paid_witness :
    amountPaidOf (checkForPayment c4St (some [coinB]) "i1").1 "i1" =
      confirmedDisplaySum [coinB] :=
  checkForPayment_overwrites_amount_paid c4St "i1" c4Invoice [coinB]
    (by rfl) (by decide) (by norm_num [confirmedDisplaySum, coinB])

/-- `INSERT IGNORE` either no-ops on an existing key or appends a fresh
key's row. -/
theorem insertIgnorePayment_cases (ps : List Payment) (p : Payment) :
    (insertIgnorePayment ps p = ps ∧
      ∃ q ∈ ps, q.invoice_guid = p.invoice_guid ∧ q.coin_name = p.coin_name) ∨
    (insertIgnorePayment ps p = ps ++ [p] ∧
      ∀ q ∈ ps, ¬(q.invoice_guid = p.invoice_guid ∧ q.coin_name = p.coin_name)) := by
  by_cases h : (ps.any
      (fun q => q.invoice_guid == p.invoice_guid && q.coin_name == p.coin_name)) = true
  · left
    exact ⟨by simp [insertIgnorePayment, h], by simpa using h⟩
  · right
    refine ⟨by simp [insertIgnorePayment, h], ?_⟩
    intro q hq hqe
    exact h (List.any_eq_true.mpr ⟨q, hq, by simp [hqe.1, hqe.2]⟩)

/-- A name is in `cnames` exactly when some confirmed transaction of the
response carries it. -/
theorem mem_cnames {l : List Tx} {n : String} :
    n ∈ cnames l ↔ ∃ t ∈ l, t.confirmed = true ∧ t.name = n := by
  simp [cnames, List.mem_map, List.mem_filter, and_assoc]

/-- Structure of the ingestion fold: it preserves the reconciler-written
shape of the payments table, its row keys afterwards are exactly the old keys
together with the response's confirmed names, and every row either was
already stored or belongs to a confirmed name of the response. -/
theorem insFold_spec (g : String) (amt : String → ℚ) :
    ∀ (l : List Tx) (ps : List Payment),
      (∀ p ∈ ps, p.invoice_guid = g ∧ p.amount = amt p.coin_name / 1000000000000) →
      ((ps.map Payment.coin_name).Nodup) →
      (∀ t ∈ l, t.confirmed = true → t.amount = amt t.name) →
      (∀ p ∈ insFold g ps l,
          p.invoice_guid = g ∧ p.amount = amt p.coin_name / 1000000000000) ∧
        ((insFold g ps l).map Payment.coin_name).Nodup ∧
        ((insFold g ps l).map Payment.coin_name).toFinset =
          (ps.map Payment.coin_name).toFinset ∪ (cnames l).toFinset ∧
        (∀ p ∈ insFold g ps l, p ∈ ps ∨ p.coin_name ∈ cnames l) := by
  intro l
  induction l with
  | nil =>
    intro ps hclean hnd hamt
    refine ⟨?_, ?_, ?_, ?_⟩
    · simpa [insFold] using hclean
    · simpa [insFold] using hnd
    · simp [insFold, cnames]
    · intro p hp
      exact Or.inl (by simpa [insFold] using hp)
  | cons t l ih =>
    intro ps hclean hnd hamt
    by_cases hc : t.confirmed = true
    · have hstep : insFold g ps (t :: l) = insFold g (insertIgnorePayment ps (paymentRow g t)) l := by
        simp [insFold, hc]
      have hcn : cnames (t :: l) = t.name :: cnames l := by
        simp [cnames, List.filter_cons, hc]
      rcases insertIgnorePayment_cases ps (paymentRow g t) with ⟨heq, q, hq, hqg, hqn⟩ | ⟨heq, hnone⟩
      · -- duplicate key: the insert is ignored
        obtain ⟨C, N, F, M⟩ := ih ps hclean hnd (fun u hu hcu => hamt u (List.mem_cons_of_mem t hu) hcu)
        rw [hstep, heq]
        have htn : t.name ∈ (ps.map Payment.coin_name).toFinset := by
          simp only [List.mem_toFinset, List.mem_map]
          exact ⟨q, hq, by simpa [paymentRow] using hqn⟩
        refine ⟨C, N, ?_, ?_⟩
        · rw [F, hcn]
          ext x
          by_cases hx : x = t.name
          · subst hx
            simp [htn]
          · simp [hx]
        · intro p hp
          rcases M p hp with h | h
          · exact Or.inl h
          · exact Or.inr (by rw [hcn]; exact List.mem_cons_of_mem _ h)
      · -- fresh key: the row is appended before folding the tail
        have hrowg : (paymentRow g t).invoice_guid = g := rfl
        have hrown : (paymentRow g t).coin_name = t.name := rfl
        have hclean' : ∀ p ∈ ps ++ [paymentRow g t],
            p.invoice_guid = g ∧ p.amount = amt p.coin_name / 1000000000000 := by
          intro p hp
          rcases List.mem_append.mp hp with h | h
          · exact hclean p h
          · have : p = paymentRow g t := by simpa using h
            subst this
            exact ⟨rfl, by simp [paymentRow, hamt t (List.mem_cons_self t l) hc]⟩
        have hnotin : t.name ∉ ps.map Payment.coin_name := by
          intro hmem
          obtain ⟨q, hq, hqn⟩ := List.mem_map.mp hmem
          exact hnone q hq ⟨(hclean q hq).1.trans hrowg.symm, hqn.trans hrown.symm⟩
        have hnd' : ((ps ++ [paymentRow g t]).map Payment.coin_name).Nodup := by
          rw [List.map_append]
          simp [List.nodup_append, hnd, hrown, hnotin]
        obtain ⟨C, N, F, M⟩ := ih (ps ++ [paymentRow g t]) hclean' hnd'
          (fun u hu hcu => hamt u (List.mem_cons_of_mem t hu) hcu)
        rw [hstep, heq]
        refine ⟨C, N, ?_, ?_⟩
        · rw [F, hcn, List.map_append]
          rw [List.toFinset_append]
          ext x
          simp only [Finset.mem_union, List.mem_toFinset, List.map_cons, List.map_nil,
            List.mem_singleton, List.toFinset_cons, Finset.mem_insert, List.mem_cons,
            List.not_mem_nil, or_false, hrown]
          tauto
        · intro p hp
          rcases M p hp with h | h
          · rcases List.mem_append.mp h with h' | h'
            · exact Or.inl h'
            · have : p = paymentRow g t := by simpa using h'
              subst this
              refine Or.inr ?_
              rw [hcn, hrown]
              exact List.mem_cons_self _ _
          · exact Or.inr (by rw [hcn]; exact List.mem_cons_of_mem _ h)
    · -- unconfirmed transactions are skipped entirely
      have hstep : insFold g ps (t :: l) = insFold g ps l := by
        simp [insFold, hc]
      have hcn : cnames (t :: l) = cnames l := by
        simp [cnames, List.filter_cons, hc]
      obtain ⟨C, N, F, M⟩ := ih ps hclean hnd (fun u hu hcu => hamt u (List.mem_cons_of_mem t hu) hcu)
      rw [hstep, hcn]
      exact ⟨C, N, F, M⟩

/-- Sum of a reconciler-shaped payments table, as a sum over its distinct
coin names. -/
theorem paymentsSumFor_eq_finset (amt : String → ℚ) (g : String) (ps : List Payment)
    (hclean : ∀ p ∈ ps, p.invoice_guid = g ∧ p.amount = amt p.coin_name / 1000000000000)
    (hnd : (ps.map Payment.coin_name).Nodup) :
    paymentsSumFor ps g =
      (ps.map Payment.coin_name).toFinset.sum (fun n => amt n / 1000000000000) := by
  have hfilter : ps.filter (fun p => p.invoice_guid == g) = ps := by
    refine List.filter_eq_self.mpr ?_
    intro p hp
    simp [(hclean p hp).1]
  rw [paymentsSumFor, hfilter, List.sum_toFinset _ hnd, List.map_map]
  exact congrArg List.sum (List.map_congr_left (fun p hp => (hclean p hp).2))

/-- The confirmed display-unit sum of a response whose confirmed names are
distinct and whose amounts are determined by `amt`, as a sum over the
confirmed names. -/
theorem confirmedDisplaySum_eq_finset (amt : String → ℚ) (l : List Tx)
    (hndl : (cnames l).Nodup)
    (hamt : ∀ t ∈ l, t.confirmed = true → t.amount = amt t.name) :
    confirmedDisplaySum l = (cnames l).toFinset.sum (fun n => amt n / 1000000000000) := by
  rw [List.sum_toFinset _ hndl, cnames, List.map_map, confirmedDisplaySum]
  refine congrArg List.sum (List.map_congr_left ?_)
  intro t ht
  have h := List.mem_filter.mp ht
  have := hamt t h.1 (by simpa using h.2)
  simp [Function.comp, this]

/-- The per-name converted amounts of a well-formed response are
nonnegative. -/
theorem cnames_nonneg (amt : String → ℚ) (l : List Tx)
    (hamt : ∀ t ∈ l, t.confirmed = true → t.amount = amt t.name ∧ 0 ≤ t.amount) :
    ∀ n ∈ (cnames l).toFinset, 0 ≤ amt n / 1000000000000 := by
  intro n hn
  rw [List.mem_toFinset] at hn
  obtain ⟨t, htl, htc, rfl⟩ := mem_cnames.mp hn
  have h := hamt t htl htc
  have h0 : 0 ≤ amt t.name := h.1 ▸ h.2
  exact div_nonneg h0 (by norm_num)

/-- One `checkForPayment` poll preserves the reconciliation invariant,
provided the response is well-formed and (when present) lists every stored
coin name; moreover every payments row afterwards was stored before or
belongs to a confirmed name of the response. -/
theorem checkForPayment_step (amt : String → ℚ) (g : String) (st : St)
    (r : Option (List Tx))
    (hinv : reconInvariant amt g st) (hgood : goodResp amt r)
    (hcov : ∀ p ∈ st.payments, ∀ l, r = some l → p.coin_name ∈ cnames l) :
    reconInvariant amt g (checkForPayment st r g).1 ∧
      ∀ p ∈ (checkForPayment st r g).1.payments,
        p ∈ st.payments ∨ ∃ l, r = some l ∧ p.coin_name ∈ cnames l := by
  obtain ⟨⟨inv, hinvs, hg, hap⟩, hclean, hnd⟩ := hinv
  have hfind : st.invoices.find? (fun i => i.guid == g) = some inv := by
    rw [hinvs]
    simp [List.find?_cons, hg]
  cases r with
  | none =>
    have h1 : (checkForPayment st none g).1 = st := by
      by_cases hp : inv.status = "paid" <;> simp [checkForPayment, hfind, hp]
    rw [h1]
    exact ⟨⟨⟨inv, hinvs, hg, hap⟩, hclean, hnd⟩, fun p hp => Or.inl hp⟩
  | some l =>
    by_cases hp : inv.status = "paid"
    · have h1 : (checkForPayment st (some l) g).1 = st := by
        simp [checkForPayment, hfind, hp]
      rw [h1]
      exact ⟨⟨⟨inv, hinvs, hg, hap⟩, hclean, hnd⟩, fun p hp => Or.inl hp⟩
    · obtain ⟨hndl, hamtl⟩ := hgood l rfl
      have hamt' : ∀ t ∈ l, t.confirmed = true → t.amount = amt t.name :=
        fun t ht hc => (hamtl t ht hc).1
      obtain ⟨C, N, F, M⟩ := insFold_spec g amt l st.payments hclean hnd hamt'
      have hpay : (checkForPayment st (some l) g).1.payments = insFold g st.payments l := by
        rw [checkForPayment_payments st l g inv hfind, if_neg hp]
      have hmem : ∀ p ∈ (checkForPayment st (some l) g).1.payments,
          p ∈ st.payments ∨ ∃ l', some l = some l' ∧ p.coin_name ∈ cnames l' := by
        intro p hpm
        rw [hpay] at hpm
        rcases M p hpm with h | h
        · exact Or.inl h
        · exact Or.inr ⟨l, rfl, h⟩
      have hsub : (st.payments.map Payment.coin_name).toFinset ⊆ (cnames l).toFinset := by
        intro x hx
        rw [List.mem_toFinset] at hx ⊢
        obtain ⟨p, hpmem, rfl⟩ := List.mem_map.mp hx
        exact hcov p hpmem l rfl
      have hF : ((insFold g st.payments l).map Payment.coin_name).toFinset
          = (cnames l).toFinset := by
        rw [F]
        exact Finset.union_eq_right.mpr hsub
      have hpsum_new : paymentsSumFor (insFold g st.payments l) g
          = (cnames l).toFinset.sum (fun n => amt n / 1000000000000) := by
        rw [paymentsSumFor_eq_finset amt g _ C N, hF]
      have hcds := confirmedDisplaySum_eq_finset amt l hndl hamt'
      have hpsum_old : paymentsSumFor st.payments g
          = (st.payments.map Payment.coin_name).toFinset.sum
              (fun n => amt n / 1000000000000) :=
        paymentsSumFor_eq_finset amt g _ hclean hnd
      have hnonneg := cnames_nonneg amt l hamtl
      have hcleanAfter : ∀ p ∈ (checkForPayment st (some l) g).1.payments,
          p.invoice_guid = g ∧ p.amount = amt p.coin_name / 1000000000000 := by
        rw [hpay]; exact C
      have hndAfter : ((checkForPayment st (some l) g).1.payments.map
          Payment.coin_name).Nodup := by
        rw [hpay]; exact N
      by_cases hz : confirmedDisplaySum l = 0
      · -- the poll is rejected on the falsy zero sum, after any inserts
        have hzero : (cnames l).toFinset.sum (fun n => amt n / 1000000000000) = 0 := by
          rw [← hcds]
          exact hz
        have hold0 : paymentsSumFor st.payments g = 0 := by
          rw [hpsum_old]
          have hle := Finset.sum_le_sum_of_subset_of_nonneg hsub
            (fun i hi _ => hnonneg i hi)
          rw [hzero] at hle
          exact le_antisymm hle (Finset.sum_nonneg (fun i hi => hnonneg i (hsub hi)))
        have hinvafter : (checkForPayment st (some l) g).1.invoices = [inv] := by
          simp [checkForPayment, hfind, hp, insertTransactionsAndCalculateSum_eq, hz,
            hinvs, hg]
        refine ⟨⟨⟨inv, hinvafter, hg, ?_⟩, hcleanAfter, hndAfter⟩, hmem⟩
        rw [hpay, hpsum_new, hzero, hap, hold0]
      · by_cases hd : inv.total_amount_due ≤ confirmedDisplaySum l
        · -- settlement: confirmPayment runs after the amount_paid overwrite
          have hinvafter : (checkForPayment st (some l) g).1.invoices
              = [{ inv with amount_paid := confirmedDisplaySum l, status := "paid" }] := by
            simp only [checkForPayment, hfind, if_neg hp,
              insertTransactionsAndCalculateSum_eq, if_neg hz, if_pos hd]
            rw [(confirmPayment_frame _ g).2.1]
            rw [show ({ st with payments := insFold g st.payments l } : St).invoices
              = st.invoices from rfl, hinvs]
            simp [updateInvoiceAmountPaid, hg]
          refine ⟨⟨⟨{ inv with amount_paid := confirmedDisplaySum l, status := "paid" },
            hinvafter, hg, ?_⟩, hcleanAfter, hndAfter⟩, hmem⟩
          show confirmedDisplaySum l
            = paymentsSumFor (checkForPayment st (some l) g).1.payments g
          rw [hpay, hpsum_new, hcds]
        · -- underpayment: only the amount_paid overwrite happens
          have hinvafter : (checkForPayment st (some l) g).1.invoices
              = [{ inv with amount_paid := confirmedDisplaySum l }] := by
            simp only [checkForPayment, hfind, if_neg hp,
              insertTransactionsAndCalculateSum_eq, if_neg hz, if_neg hd]
            rw [show ({ st with payments := insFold g st.payments l } : St).invoices
              = st.invoices from rfl, hinvs]
            simp [updateInvoiceAmountPaid, hg]
          refine ⟨⟨⟨{ inv with amount_paid := confirmedDisplaySum l },
            hinvafter, hg, ?_⟩, hcleanAfter, hndAfter⟩, hmem⟩
          show confirmedDisplaySum l
            = paymentsSumFor (checkForPayment st (some l) g).1.payments g
          rw [hpay, hpsum_new, hcds]

/-- The reconciliation invariant is carried through any sequence of polls
whose responses are well-formed and monotone (each later poll lists every
confirmed transaction an earlier poll listed). -/
theorem runChecks_invariant (amt : String → ℚ) (g : String) :
    ∀ (resps : List (Option (List Tx))) (st : St),
      reconInvariant amt g st →
      (∀ r ∈ resps, goodResp amt r) →
      resps.Pairwise respLe →
      (∀ p ∈ st.payments, ∀ r ∈ resps, ∀ l, r = some l → p.coin_name ∈ cnames l) →
      reconInvariant amt g (runChecks st g resps) := by
  intro resps
  induction resps with
  | nil =>
    intro st h _ _ _
    simpa [runChecks] using h
  | cons r rs ih =>
    intro st hinv hgood hpair hcov
    have hstep := checkForPayment_step amt g st r hinv (hgood r (List.mem_cons_self r rs))
      (fun p hp l hl => hcov p hp r (List.mem_cons_self r rs) l hl)
    have hrun : runChecks st g (r :: rs) = runChecks (checkForPayment st r g).1 g rs := by
      simp [runChecks]
    rw [hrun]
    refine ih (checkForPayment st r g).1 hstep.1
      (fun r' hr' => hgood r' (List.mem_cons_of_mem r hr'))
      (List.pairwise_cons.mp hpair).2 ?_
    intro p hp r' hr' l' hl'
    rcases hstep.2 p hp with hold | ⟨l, hleq, hname⟩
    · exact hcov p hold r' (List.mem_cons_of_mem r hr') l' hl'
    · exact (List.pairwise_cons.mp hpair).1 r' hr' l l' hleq hl' _ hname

/-- C1: starting from a freshly created invoice (`amount_paid = 0`, no
payments rows), after any sequence of `checkForPayment` polls against a
well-behaved gateway — each response's confirmed transactions carry distinct
names, a name's nonnegative amount never changes between polls, and later
polls list every confirmed transaction earlier polls listed — the stored
invoice's `amount_paid` equals the sum of the `amount` column over all its
payments rows. -/
theorem amount_paid_eq_sum_of_payment_rows
    (inv₀ : Invoice) (subs : List Subscription) (users : List User)
    (resps : List (Option (List Tx))) (amt : String → ℚ)
    (hpaid0 : inv₀.amount_paid = 0)
    (hgood : ∀ r ∈ resps, goodResp amt r)
    (hmono : resps.Pairwise respLe) :
    ∃ inv', (runChecks ⟨[inv₀], [], subs, users, []⟩ inv₀.guid resps).invoices = [inv'] ∧
      inv'.guid = inv₀.guid ∧
      inv'.amount_paid =
        paymentsSumFor
          (runChecks ⟨[inv₀], [], subs, users, []⟩ inv₀.guid resps).payments
          inv₀.guid := by
  have h := runChecks_invariant amt inv₀.guid resps ⟨[inv₀], [], subs, users, []⟩
    ⟨⟨inv₀, rfl, rfl, by simp [paymentsSumFor, hpaid0]⟩, by simp, by simp⟩
    hgood hmono (by intro p hp; simp at hp)
  exact h.1

/-- Witness for C1: one poll listing the single confirmed transaction
`coinA` against the fresh sample invoice. -/
theorem amount_paid_eq_sum_of_payment_rows_witness :
    ∃ inv', (runChecks ⟨[unpaidInvoice], [], [graceSub], [sampleUser], []⟩ "i1"
        [some [coinA]]).invoices = [inv'] ∧
      inv'.guid = "i1" ∧
      inv'.amount_paid =
        paymentsSumFor
          (runChecks ⟨[unpaidInvoice], [], [graceSub], [sampleUser], []⟩ "i1"
            [some [coinA]]).payments "i1" := by
  have hgood : ∀ r ∈ ([some [coinA]] : List (Option (List Tx))),
      goodResp (fun _ => (2000000000000 : ℚ)) r := by
    intro r hr
    simp only [List.mem_singleton] at hr
    subst hr
    intro l hl
    injection hl with hl'
    subst hl'
    refine ⟨by simp [cnames, coinA], ?_⟩
    intro t ht hc
    simp only [List.mem_singleton] at ht
    subst ht
    exact ⟨rfl, by norm_num [coinA]⟩
  have hmono : ([some [coinA]] : List (Option (List Tx))).Pairwise respLe := by simp
  exact amount_paid_eq_sum_of_payment_rows unpaidInvoice [graceSub] [sampleUser]
    [some [coinA]] (fun _ => 2000000000000) rfl hgood hmono
